import Mathlib

/-!
Shallow embedding of the protocol dispatch core of the agora-protocol demo.

Server variant: `agents/server/main.py` (`call_implementation`,
`handle_query_suitable`, `handle_query`). The registry and routine-cache
helpers it imports (`agents/server/memory.py`) are not part of the sources;
they are modelled from the specification (sections 4.1 and 4.2).

Gateway variant: `gateway.py` (`main`).

External collaborators (responder, suitability classifier, routine
synthesizer, document fetcher, routine executor) are modelled as oracle
functions bundled in an environment; every external invocation the
dispatcher performs is additionally recorded in a call trace so that
claims about which collaborators run can be stated.
-/

namespace Agora

/-- Association-list lookup keyed by strings, first match wins: the model
of a Python dict access. -/
def alookup {β : Type} (k : String) : List (String × β) → Option β
  | [] => none
  | (k₁, v) :: rest => if k₁ = k then some v else alookup k rest

/-- Update every entry whose key is `k` by `f` (the model of writing one
key of a Python dict). -/
def mapEntry {β : Type} (k : String) (f : β → β) (l : List (String × β)) :
    List (String × β) :=
  l.map fun p => if p.1 = k then (p.1, f p.2) else p

/-- Suitability verdict of a protocol, `agents/common/core.py`
(modelled from the spec, section 3: enum with the three values). -/
inductive Suitability : Type
  | unknown
  | adequate
  | inadequate
deriving DecidableEq, Repr

/-- One registry record of `PROTOCOL_INFOS`. Modelled from the spec,
section 4.1: source, suitability (starts `UNKNOWN`), conversation count
(starts 0); the protocol document stored at registration is kept in the
record, standing for the file written under `protocol_documents`. -/
structure ProtocolInfo : Type where
  source : String
  document : String
  suitability : Suitability
  numConversations : Nat
deriving DecidableEq, Repr

/-- Mutable state of the server agent: the protocol registry
(`PROTOCOL_INFOS`) and the routine cache (files under `routines`,
here hash to implementation). -/
structure ServerState : Type where
  protocolInfos : List (String × ProtocolInfo)
  routines : List (String × String)
deriving DecidableEq, Repr

/-- Modelled from the spec: `register_new_protocol` of
`agents/server/memory.py` (section 4.1 `register`): creates a record with
`suitability = UNKNOWN`, `conversationCount = 0`, keeping the given source
and document. -/
def register_new_protocol (s : ServerState) (h source document : String) :
    ServerState :=
  { s with protocolInfos :=
      (h, ⟨source, document, Suitability.unknown, 0⟩) :: s.protocolInfos }

/-- Modelled from the spec: `has_implementation` of
`agents/server/memory.py` (section 4.2 `has`). -/
def has_implementation (s : ServerState) (h : String) : Bool :=
  (alookup h s.routines).isSome

/-- Modelled from the spec: `get_num_conversations` of
`agents/server/memory.py`; `none` when the record does not exist
(section 4.1 `get` yields `NotFound`). -/
def get_num_conversations (s : ServerState) (h : String) : Option Nat :=
  (alookup h s.protocolInfos).map fun info => info.numConversations

/-- Modelled from the spec: `increment_num_conversations` of
`agents/server/memory.py` (section 4.1 `incrementConversationCount`):
atomic increment, no-op if the record does not exist. -/
def increment_num_conversations (s : ServerState) (h : String) : ServerState :=
  { s with protocolInfos :=
      mapEntry h (fun info => { info with numConversations := info.numConversations + 1 }) s.protocolInfos }

/-- Modelled from the spec: `add_routine` of `agents/server/memory.py`
(section 4.2 `put`): stores the implementation in the routine cache. -/
def add_routine (s : ServerState) (h implementation : String) : ServerState :=
  { s with routines := (h, implementation) :: s.routines }

/-- Modelled from the spec: the suitability write performed on
`PROTOCOL_INFOS[protocol_hash]` in `agents/server/main.py`. -/
def set_suitability (s : ServerState) (h : String) (v : Suitability) :
    ServerState :=
  { s with protocolInfos :=
      mapEntry h (fun info => { info with suitability := v }) s.protocolInfos }

/-- Modelled from the spec: `load_protocol_document` of `utils.py` reads
the document stored for a registered protocol (the document written at
registration time). -/
def load_protocol_document (s : ServerState) (h : String) : Option String :=
  (alookup h s.protocolInfos).map fun info => info.document

/-- The stored suitability of a protocol, the value the dispatcher reads
from `PROTOCOL_INFOS[protocol_hash]`. -/
def suitability_of (s : ServerState) (h : String) : Option Suitability :=
  (alookup h s.protocolInfos).map fun info => info.suitability

/-- Oracles for the external collaborators of the server agent
(spec section 6): the suitability classifier
(`check_protocol_for_tools`), the routine synthesizer
(`write_routine_for_tools`, always called with an empty tool list in the
source), the document fetcher (`download_and_verify_protocol`, `none` for
an invalid source) and the routine executor (`execute_routine`, `none`
when the implementation raises). -/
structure Env : Type where
  check_protocol_for_tools : String → String → Bool
  write_routine_for_tools : String → String
  download_and_verify_protocol : String → String → Option String
  execute_routine : String → String → Option String

/-- Observable outcome of one dispatched query. `success` and
`executionFailed` are the two dictionaries built by
`call_implementation`; `protocolNotSuitable` and `noValidProtocolSource`
are the two error dictionaries of `handle_query`; `responderReply` stands
for the value returned by `reply_to_query(query, context)`; `crash` is an
uncaught Python exception escaping the handler. -/
inductive Response : Type
  | success (message : String)
  | executionFailed
  | protocolNotSuitable
  | noValidProtocolSource
  | responderReply (query : String) (context : Option String)
  | crash
deriving DecidableEq, Repr

/-- Record of one invocation of an external collaborator during a
dispatch. -/
inductive ExtCall : Type
  | classify (h query : String)
  | synthesize (h : String)
  | respond (query : String) (context : Option String)
  | fetch (h source : String)
deriving DecidableEq, Repr

/-- Embedding of `call_implementation` (`agents/server/main.py` lines
27-41): run `execute_routine` on the cached routine; any failure,
including a missing routine file, is caught and reported as the
error dictionary. -/
def call_implementation (env : Env) (s : ServerState) (h query : String) :
    Response :=
  match alookup h s.routines with
  | none => Response.executionFailed
  | some impl =>
    match env.execute_routine impl query with
    | none => Response.executionFailed
    | some output => Response.success output

/-- Threshold constant `NUM_CONVERSATIONS_FOR_ROUTINE`
(`agents/server/main.py` line 25). -/
def NUM_CONVERSATIONS_FOR_ROUTINE : Int := -1

/-- Embedding of `handle_query_suitable` (`agents/server/main.py` lines
43-57): increment the conversation count, then execute an existing
routine, or synthesize one when the count reaches the threshold, or fall
back to the responder with the protocol hash as context. A missing
registry record or document makes the Python raise, modelled as
`Response.crash`. -/
def handle_query_suitable (env : Env) (s : ServerState) (h query : String) :
    ServerState × Response × List ExtCall :=
  let s₁ := increment_num_conversations s h
  if has_implementation s₁ h then
    (s₁, call_implementation env s₁ h query, [])
  else
    match get_num_conversations s₁ h with
    | none => (s₁, Response.crash, [])
    | some n =>
      if (n : Int) ≥ NUM_CONVERSATIONS_FOR_ROUTINE then
        match load_protocol_document s₁ h with
        | none => (s₁, Response.crash, [])
        | some doc =>
          let s₂ := add_routine s₁ h (env.write_routine_for_tools doc)
          (s₂, call_implementation env s₂ h query, [ExtCall.synthesize h])
      else
        (s₁, Response.responderReply query (some h),
          [ExtCall.respond query (some h)])

/-- Embedding of the suitability-classification block of `handle_query`
(`agents/server/main.py` lines 68-75): when the stored suitability is
`UNKNOWN`, load the stored protocol document, run the classifier on it
and the query, and store the terminal verdict; otherwise leave the state
untouched and invoke nothing. -/
def classify_if_unknown (env : Env) (s : ServerState) (h query : String) :
    ServerState × List ExtCall :=
  match alookup h s.protocolInfos with
  | none => (s, [])
  | some info =>
    if info.suitability = Suitability.unknown then
      if env.check_protocol_for_tools info.document query then
        (set_suitability s h Suitability.adequate, [ExtCall.classify h query])
      else
        (set_suitability s h Suitability.inadequate, [ExtCall.classify h query])
    else (s, [])

/-- Embedding of the source loop of `handle_query`
(`agents/server/main.py` lines 89-94): try each offered source in order;
on the first successfully fetched-and-verified document register the
protocol and handle the query as suitable; otherwise report that no valid
source was provided. -/
def try_sources (env : Env) (s : ServerState) (h query : String) :
    List String → ServerState × Response × List ExtCall
  | [] => (s, Response.noValidProtocolSource, [])
  | source :: rest =>
    match env.download_and_verify_protocol h source with
    | some doc =>
      let s₁ := register_new_protocol s h source doc
      let r := handle_query_suitable env s₁ h query
      (r.1, r.2.1, ExtCall.fetch h source :: r.2.2)
    | none =>
      let r := try_sources env s h query rest
      (r.1, r.2.1, ExtCall.fetch h source :: r.2.2)

/-- Embedding of `handle_query` (`agents/server/main.py` lines 59-94):
no hash goes straight to the responder; a cached routine is executed
immediately; a registered protocol is classified if still unknown and
then handled as suitable or rejected; an unregistered protocol goes
through the source loop. -/
def handle_query (env : Env) (s : ServerState) (protocol_hash : Option String)
    (protocol_sources : List String) (query : String) :
    ServerState × Response × List ExtCall :=
  match protocol_hash with
  | none =>
    (s, Response.responderReply query none, [ExtCall.respond query none])
  | some h =>
    if has_implementation s h then
      (s, call_implementation env s h query, [])
    else if (alookup h s.protocolInfos).isSome then
      let p := classify_if_unknown env s h query
      if suitability_of p.1 h = some Suitability.adequate then
        let r := handle_query_suitable env p.1 h query
        (r.1, r.2.1, p.2 ++ r.2.2)
      else
        (p.1, Response.protocolNotSuitable, p.2)
    else
      try_sources env s h query protocol_sources

/-- Promotion threshold `TRIGGER_NUM_CALLS` of the gateway variant
(`gateway.py` line 15). -/
def TRIGGER_NUM_CALLS : Nat := 2

/-- Oracles for the collaborators of the gateway (`gateway.py`): the set
of protocol hashes the routine-manager service reports as known, and the
synthesizer `create_and_save_routine` (from the `programmer` module, not
in the sources), `false` when that call raises. -/
structure GatewayEnv : Type where
  known_hashes : List String
  create_and_save_routine : String → Bool

/-- Mutable state of the gateway: the in-memory `HASH_COUNTER` dict. -/
structure GatewayState : Type where
  hash_counter : List (String × Nat)
deriving DecidableEq, Repr

/-- Observable outcome of one gateway request: the forwarded response of
the model handler, the forwarded response of the routine manager, an
uncaught `KeyError` on `HASH_COUNTER`, or an uncaught exception raised by
`create_and_save_routine`. -/
inductive GResult : Type
  | modelResponse
  | routineResponse
  | keyError
  | synthesisError
deriving DecidableEq, Repr

/-- The write `HASH_COUNTER[protocol_hash] = HASH_COUNTER.get(protocol_hash, 0) + 1`
of `gateway.py` line 36. -/
def bump_counter (l : List (String × Nat)) (h : String) : List (String × Nat) :=
  match alookup h l with
  | none => (h, 1) :: l
  | some _ => mapEntry h (fun m => m + 1) l

/-- Embedding of `main` of `gateway.py` (lines 17-42): no hash forwards
to the model handler; a hash known to the routine manager forwards there;
otherwise the counter is bumped unless the hash is the chat sentinel, the
counter entry is read (a `KeyError` when absent), and at the threshold
`create_and_save_routine` is invoked before forwarding to the model
handler. The trace lists the hashes for which synthesis was invoked. -/
def gateway_main (env : GatewayEnv) (s : GatewayState)
    (protocol_hash : Option String) : GatewayState × GResult × List String :=
  match protocol_hash with
  | none => (s, GResult.modelResponse, [])
  | some h =>
    if h ∈ env.known_hashes then
      (s, GResult.routineResponse, [])
    else
      let s₁ : GatewayState :=
        if h ≠ "chat" then ⟨bump_counter s.hash_counter h⟩ else s
      match alookup h s₁.hash_counter with
      | none => (s₁, GResult.keyError, [])
      | some n =>
        if n ≥ TRIGGER_NUM_CALLS then
          if env.create_and_save_routine h then
            (s₁, GResult.modelResponse, [h])
          else
            (s₁, GResult.synthesisError, [h])
        else
          (s₁, GResult.modelResponse, [])

/-! ### Basic lemmas about the association-list operations -/

theorem alookup_cons {β : Type} (k a : String) (b : β) (rest : List (String × β)) :
    alookup k ((a, b) :: rest) = if a = k then some b else alookup k rest := rfl

theorem mapEntry_cons {β : Type} (k : String) (f : β → β) (a : String) (b : β)
    (rest : List (String × β)) :
    mapEntry k f ((a, b) :: rest) =
      (if a = k then (a, f b) else (a, b)) :: mapEntry k f rest := rfl

theorem alookup_mapEntry_self {β : Type} (k : String) (f : β → β)
    (l : List (String × β)) :
    alookup k (mapEntry k f l) = (alookup k l).map f := by
  induction l with
  | nil => rfl
  | cons p rest ih =>
    obtain ⟨a, b⟩ := p
    rw [mapEntry_cons]
    by_cases hp : a = k
    · rw [if_pos hp, alookup_cons, if_pos hp, alookup_cons, if_pos hp]
      rfl
    · rw [if_neg hp, alookup_cons, if_neg hp, alookup_cons, if_neg hp, ih]

theorem alookup_mapEntry_ne {β : Type} (k k₁ : String) (f : β → β)
    (l : List (String × β)) (hne : k₁ ≠ k) :
    alookup k₁ (mapEntry k f l) = alookup k₁ l := by
  induction l with
  | nil => rfl
  | cons p rest ih =>
    obtain ⟨a, b⟩ := p
    rw [mapEntry_cons]
    by_cases hp : a = k
    · have hp₁ : a ≠ k₁ := by rw [hp]; exact fun hc => hne hc.symm
      rw [if_pos hp, alookup_cons, if_neg hp₁, alookup_cons, if_neg hp₁, ih]
    · by_cases hq : a = k₁
      · rw [if_neg hp, alookup_cons, if_pos hq, alookup_cons, if_pos hq]
      · rw [if_neg hp, alookup_cons, if_neg hq, alookup_cons, if_neg hq, ih]

/-! ### Lemmas about the state operations of the server -/

theorem routines_increment (s : ServerState) (h : String) :
    (increment_num_conversations s h).routines = s.routines := rfl

theorem infos_increment_self (s : ServerState) (h : String) :
    alookup h (increment_num_conversations s h).protocolInfos =
      (alookup h s.protocolInfos).map
        (fun info => { info with numConversations := info.numConversations + 1 }) := by
  unfold increment_num_conversations
  dsimp only
  exact alookup_mapEntry_self h _ s.protocolInfos

theorem infos_increment_ne (s : ServerState) (h h₁ : String) (hne : h₁ ≠ h) :
    alookup h₁ (increment_num_conversations s h).protocolInfos =
      alookup h₁ s.protocolInfos := by
  unfold increment_num_conversations
  dsimp only
  exact alookup_mapEntry_ne h h₁ _ s.protocolInfos hne

theorem infos_set_suitability_self (s : ServerState) (h : String)
    (v : Suitability) :
    alookup h (set_suitability s h v).protocolInfos =
      (alookup h s.protocolInfos).map (fun info => { info with suitability := v }) := by
  unfold set_suitability
  dsimp only
  exact alookup_mapEntry_self h _ s.protocolInfos

theorem infos_set_suitability_ne (s : ServerState) (h h₁ : String)
    (v : Suitability) (hne : h₁ ≠ h) :
    alookup h₁ (set_suitability s h v).protocolInfos =
      alookup h₁ s.protocolInfos := by
  unfold set_suitability
  dsimp only
  exact alookup_mapEntry_ne h h₁ _ s.protocolInfos hne

theorem infos_add_routine (s : ServerState) (h impl : String) :
    (add_routine s h impl).protocolInfos = s.protocolInfos := rfl

theorem has_implementation_increment (s : ServerState) (h h₁ : String) :
    has_implementation (increment_num_conversations s h) h₁ =
      has_implementation s h₁ := rfl

/-! ### Shape of the outcomes of `handle_query_suitable` -/

theorem call_implementation_not_responder (env : Env) (s : ServerState)
    (h q qq : String) (ctx : Option String) :
    call_implementation env s h q ≠ Response.responderReply qq ctx := by
  unfold call_implementation
  cases alookup h s.routines with
  | none => simp
  | some impl => cases h5 : env.execute_routine impl q <;> simp [h5]

theorem natCast_ge_threshold (n : Nat) :
    ((n : Int) ≥ NUM_CONVERSATIONS_FOR_ROUTINE) = True := by
  simp only [NUM_CONVERSATIONS_FOR_ROUTINE, ge_iff_le, eq_iff_iff, iff_true]
  have := Int.natCast_nonneg n
  omega

theorem hqs_trace_cases (env : Env) (s : ServerState) (h q : String) :
    (handle_query_suitable env s h q).2.2 = [] ∨
      (handle_query_suitable env s h q).2.2 = [ExtCall.synthesize h] := by
  unfold handle_query_suitable
  by_cases h1 : has_implementation (increment_num_conversations s h) h
  · simp [h1]
  · cases h2 : get_num_conversations (increment_num_conversations s h) h with
    | none => simp [h1, h2]
    | some n =>
      cases h3 : load_protocol_document (increment_num_conversations s h) h with
      | none => simp [h1, h2, h3, natCast_ge_threshold]
      | some doc => simp [h1, h2, h3, natCast_ge_threshold]

theorem hqs_result_not_responder (env : Env) (s : ServerState)
    (h q qq : String) (ctx : Option String) :
    (handle_query_suitable env s h q).2.1 ≠ Response.responderReply qq ctx := by
  unfold handle_query_suitable
  by_cases h1 : has_implementation (increment_num_conversations s h) h
  · simpa [h1] using call_implementation_not_responder env _ h q qq ctx
  · cases h2 : get_num_conversations (increment_num_conversations s h) h with
    | none => simp [h1, h2]
    | some n =>
      cases h3 : load_protocol_document (increment_num_conversations s h) h with
      | none => simp [h1, h2, h3, natCast_ge_threshold]
      | some doc =>
        simpa [h1, h2, h3, natCast_ge_threshold] using
          call_implementation_not_responder env _ h q qq ctx

theorem hqs_infos (env : Env) (s : ServerState) (h q : String) :
    (handle_query_suitable env s h q).1.protocolInfos =
      (increment_num_conversations s h).protocolInfos := by
  unfold handle_query_suitable
  by_cases h1 : has_implementation (increment_num_conversations s h) h
  · simp [h1]
  · cases h2 : get_num_conversations (increment_num_conversations s h) h with
    | none => simp [h1, h2]
    | some n =>
      cases h3 : load_protocol_document (increment_num_conversations s h) h with
      | none => simp [h1, h2, h3, natCast_ge_threshold]
      | some doc => simp [h1, h2, h3, natCast_ge_threshold, add_routine]

/-- Without a cached routine, `handle_query_suitable` always takes the
synthesis branch (the threshold is -1): increment, synthesize from the
stored document, store the routine, execute it on the same query. -/
theorem hqs_synthesizes (env : Env) (s : ServerState) (h q : String)
    (info : ProtocolInfo)
    (hreg : alookup h s.protocolInfos = some info)
    (hnoimpl : has_implementation s h = false) :
    handle_query_suitable env s h q =
      (add_routine (increment_num_conversations s h) h
          (env.write_routine_for_tools info.document),
        call_implementation env
          (add_routine (increment_num_conversations s h) h
            (env.write_routine_for_tools info.document)) h q,
        [ExtCall.synthesize h]) := by
  have h1 : has_implementation (increment_num_conversations s h) h = false := by
    rw [has_implementation_increment]; exact hnoimpl
  have h2 : get_num_conversations (increment_num_conversations s h) h =
      some (info.numConversations + 1) := by
    unfold get_num_conversations
    rw [infos_increment_self, hreg]; rfl
  have h3 : load_protocol_document (increment_num_conversations s h) h =
      some info.document := by
    unfold load_protocol_document
    rw [infos_increment_self, hreg]; rfl
  unfold handle_query_suitable
  simp [h1, h2, h3, natCast_ge_threshold]
  unfold NUM_CONVERSATIONS_FOR_ROUTINE
  have := Int.natCast_nonneg info.numConversations
  omega

/-! ### Reduction lemmas for the dispatcher branches -/

theorem handle_query_fast_path (env : Env) (s : ServerState)
    (srcs : List String) (h q : String)
    (himpl : has_implementation s h = true) :
    handle_query env s (some h) srcs q =
      (s, call_implementation env s h q, []) := by
  unfold handle_query
  simp [himpl]

theorem handle_query_none_hash (env : Env) (s : ServerState)
    (srcs : List String) (q : String) :
    handle_query env s none srcs q =
      (s, Response.responderReply q none, [ExtCall.respond q none]) := rfl

theorem handle_query_adequate (env : Env) (s : ServerState)
    (srcs : List String) (h q : String) (info : ProtocolInfo)
    (hreg : alookup h s.protocolInfos = some info)
    (hadq : info.suitability = Suitability.adequate)
    (hnoimpl : has_implementation s h = false) :
    handle_query env s (some h) srcs q = handle_query_suitable env s h q := by
  have hciu : classify_if_unknown env s h q = (s, []) := by
    unfold classify_if_unknown
    rw [hreg]
    simp [hadq]
  have hsuit : suitability_of s h = some Suitability.adequate := by
    unfold suitability_of
    rw [hreg]
    simp [hadq]
  simp only [handle_query, hnoimpl, Bool.false_eq_true, if_false, hreg, Option.isSome_some,
    if_true, hciu, hsuit, if_pos rfl, List.nil_append]

theorem handle_query_inadequate (env : Env) (s : ServerState)
    (srcs : List String) (h q : String) (info : ProtocolInfo)
    (hreg : alookup h s.protocolInfos = some info)
    (hbad : info.suitability = Suitability.inadequate)
    (hnoimpl : has_implementation s h = false) :
    handle_query env s (some h) srcs q =
      (s, Response.protocolNotSuitable, []) := by
  have hciu : classify_if_unknown env s h q = (s, []) := by
    unfold classify_if_unknown
    rw [hreg]
    simp [hbad]
  have hsuit : suitability_of s h = some Suitability.inadequate := by
    unfold suitability_of
    rw [hreg]
    simp [hbad]
  simp [handle_query, hnoimpl, hreg, hciu, hsuit]

theorem handle_query_unregistered (env : Env) (s : ServerState)
    (srcs : List String) (h q : String)
    (hunreg : alookup h s.protocolInfos = none)
    (hnoimpl : has_implementation s h = false) :
    handle_query env s (some h) srcs q = try_sources env s h q srcs := by
  simp [handle_query, hnoimpl, hunreg]

theorem try_sources_skip (env : Env) (s : ServerState) (h q x : String)
    (rest : List String)
    (hx : env.download_and_verify_protocol h x = none) :
    try_sources env s h q (x :: rest) =
      ((try_sources env s h q rest).1, (try_sources env s h q rest).2.1,
        ExtCall.fetch h x :: (try_sources env s h q rest).2.2) := by
  simp [try_sources, hx]


theorem try_sources_hit (env : Env) (s : ServerState) (h q x doc : String)
    (rest : List String)
    (hx : env.download_and_verify_protocol h x = some doc) :
    try_sources env s h q (x :: rest) =
      ((handle_query_suitable env (register_new_protocol s h x doc) h q).1,
        (handle_query_suitable env (register_new_protocol s h x doc) h q).2.1,
        ExtCall.fetch h x ::
          (handle_query_suitable env (register_new_protocol s h x doc) h q).2.2) := by
  simp [try_sources, hx]

theorem try_sources_all_fail (env : Env) (s : ServerState) (h q : String)
    (srcs : List String)
    (hall : ∀ x ∈ srcs, env.download_and_verify_protocol h x = none) :
    try_sources env s h q srcs =
      (s, Response.noValidProtocolSource, srcs.map (ExtCall.fetch h)) := by
  induction srcs with
  | nil => rfl
  | cons x rest ih =>
    have hx : env.download_and_verify_protocol h x = none :=
      hall x (List.mem_cons_self x rest)
    have ihr := ih fun y hy => hall y (List.mem_cons_of_mem x hy)
    rw [try_sources_skip env s h q x rest hx, ihr]
    rfl

/-! ### The classifier runs only on a stored UNKNOWN verdict -/

theorem classify_not_mem_hqs (env : Env) (s : ServerState) (h q hh qq : String) :
    ExtCall.classify hh qq ∉ (handle_query_suitable env s h q).2.2 := by
  rcases hqs_trace_cases env s h q with hc | hc <;> simp [hc]

theorem classify_not_mem_try_sources (env : Env) (s : ServerState)
    (h q hh qq : String) (srcs : List String) :
    ExtCall.classify hh qq ∉ (try_sources env s h q srcs).2.2 := by
  induction srcs generalizing s with
  | nil => simp [try_sources]
  | cons x rest ih =>
    cases hx : env.download_and_verify_protocol h x with
    | none =>
      rw [try_sources_skip env s h q x rest hx]
      simp only [List.mem_cons]
      rintro (hc | hc)
      · exact ExtCall.noConfusion hc
      · exact ih s hc
    | some doc =>
      rw [try_sources_hit env s h q x doc rest hx]
      simp only [List.mem_cons]
      rintro (hc | hc)
      · exact ExtCall.noConfusion hc
      · exact classify_not_mem_hqs env _ h q hh qq hc

/-- Wherever a dispatch invokes the suitability classifier, the dispatched
hash had a registered record whose stored suitability was UNKNOWN, and the
classifier received the dispatched query. -/
theorem classify_mem_handle_query (env : Env) (s : ServerState)
    (h? : Option String) (srcs : List String) (q hh qq : String)
    (hmem : ExtCall.classify hh qq ∈ (handle_query env s h? srcs q).2.2) :
    ∃ h, h? = some h ∧ hh = h ∧ qq = q ∧
      suitability_of s h = some Suitability.unknown := by
  cases h? with
  | none => simp [handle_query] at hmem
  | some h =>
    refine ⟨h, rfl, ?_⟩
    by_cases h1 : has_implementation s h = true
    · rw [handle_query_fast_path env s srcs h q h1] at hmem
      simp at hmem
    · have h1f : has_implementation s h = false := by
        cases h2 : has_implementation s h
        · rfl
        · exact absurd h2 h1
      cases hreg : alookup h s.protocolInfos with
      | none =>
        rw [handle_query_unregistered env s srcs h q hreg h1f] at hmem
        exact absurd hmem (classify_not_mem_try_sources env s h q hh qq srcs)
      | some info =>
        cases hsuit : info.suitability with
        | adequate =>
          rw [handle_query_adequate env s srcs h q info hreg hsuit h1f] at hmem
          exact absurd hmem (classify_not_mem_hqs env s h q hh qq)
        | inadequate =>
          rw [handle_query_inadequate env s srcs h q info hreg hsuit h1f] at hmem
          simp at hmem
        | unknown =>
          refine ?_
          have hciu :
              (classify_if_unknown env s h q).2 = [ExtCall.classify h q] := by
            unfold classify_if_unknown
            rw [hreg]
            simp only [hsuit, if_pos rfl]
            cases env.check_protocol_for_tools info.document q <;> simp
          have htrace_mem : ExtCall.classify hh qq = ExtCall.classify h q := by
            simp only [handle_query, h1f, Bool.false_eq_true, if_false, hreg,
              Option.isSome_some, if_true] at hmem
            by_cases hcond :
                suitability_of (classify_if_unknown env s h q).1 h =
                  some Suitability.adequate
            · rw [if_pos hcond] at hmem
              rcases List.mem_append.mp hmem with hm | hm
              · rw [hciu] at hm
                simpa using hm
              · exact absurd hm (classify_not_mem_hqs env _ h q hh qq)
            · rw [if_neg hcond] at hmem
              rw [hciu] at hmem
              simpa using hmem
          exact ⟨by injection htrace_mem, by injection htrace_mem,
            by unfold suitability_of; rw [hreg]; simp [hsuit]⟩

/-! ### Evolution of registry records under a dispatch -/

/-- How one registry record may evolve across a dispatch: source and
document never change, the conversation count never decreases, and a
suitability that is already terminal (not UNKNOWN) is never changed. -/
def infoLe (a b : ProtocolInfo) : Prop :=
  b.source = a.source ∧ b.document = a.document ∧
    a.numConversations ≤ b.numConversations ∧
    (a.suitability ≠ Suitability.unknown → b.suitability = a.suitability)

theorem infoLe_refl (a : ProtocolInfo) : infoLe a a :=
  ⟨rfl, rfl, le_refl _, fun _ => rfl⟩

theorem infoLe_trans (a b c : ProtocolInfo) (hab : infoLe a b)
    (hbc : infoLe b c) : infoLe a c := by
  refine ⟨hbc.1.trans hab.1, hbc.2.1.trans hab.2.1,
    le_trans hab.2.2.1 hbc.2.2.1, fun hne => ?_⟩
  have hb := hab.2.2.2 hne
  have hbne : b.suitability ≠ Suitability.unknown := by
    rw [hb]; exact hne
  rw [hbc.2.2.2 hbne, hb]

theorem preserve_increment (s : ServerState) (h h₁ : String)
    (info : ProtocolInfo) (hl : alookup h₁ s.protocolInfos = some info) :
    ∃ info₁, alookup h₁ (increment_num_conversations s h).protocolInfos =
      some info₁ ∧ infoLe info info₁ := by
  by_cases he : h₁ = h
  · subst he
    rw [infos_increment_self, hl]
    exact ⟨_, rfl, rfl, rfl, Nat.le_succ _, fun _ => rfl⟩
  · rw [infos_increment_ne s h h₁ he, hl]
    exact ⟨info, rfl, infoLe_refl info⟩

theorem preserve_hqs (env : Env) (s : ServerState) (h q h₁ : String)
    (info : ProtocolInfo) (hl : alookup h₁ s.protocolInfos = some info) :
    ∃ info₁, alookup h₁ (handle_query_suitable env s h q).1.protocolInfos =
      some info₁ ∧ infoLe info info₁ := by
  rw [hqs_infos]
  exact preserve_increment s h h₁ info hl

theorem preserve_set_unknown (s : ServerState) (h h₁ : String)
    (v : Suitability) (info i₀ : ProtocolInfo)
    (hreg : alookup h s.protocolInfos = some i₀)
    (hu : i₀.suitability = Suitability.unknown)
    (hl : alookup h₁ s.protocolInfos = some info) :
    ∃ info₁, alookup h₁ (set_suitability s h v).protocolInfos =
      some info₁ ∧ infoLe info info₁ := by
  by_cases he : h₁ = h
  · subst he
    have heq : info = i₀ := by
      rw [hl] at hreg
      injection hreg
    rw [infos_set_suitability_self, hl]
    refine ⟨_, rfl, rfl, rfl, le_refl _, fun hne => ?_⟩
    rw [heq] at hne
    exact absurd hu hne
  · rw [infos_set_suitability_ne s h h₁ v he, hl]
    exact ⟨info, rfl, infoLe_refl info⟩

theorem preserve_register (s : ServerState) (h src doc h₁ : String)
    (info : ProtocolInfo)
    (hfresh : alookup h s.protocolInfos = none)
    (hl : alookup h₁ s.protocolInfos = some info) :
    alookup h₁ (register_new_protocol s h src doc).protocolInfos =
      some info := by
  have hne : h ≠ h₁ := by
    intro he
    rw [he] at hfresh
    rw [hfresh] at hl
    exact Option.noConfusion hl
  unfold register_new_protocol
  dsimp only
  rw [alookup_cons, if_neg hne]
  exact hl

theorem preserve_try_sources (env : Env) (s : ServerState) (h q h₁ : String)
    (srcs : List String) (info : ProtocolInfo)
    (hfresh : alookup h s.protocolInfos = none)
    (hl : alookup h₁ s.protocolInfos = some info) :
    ∃ info₁, alookup h₁ (try_sources env s h q srcs).1.protocolInfos =
      some info₁ ∧ infoLe info info₁ := by
  induction srcs with
  | nil => exact ⟨info, hl, infoLe_refl info⟩
  | cons x rest ih =>
    cases hx : env.download_and_verify_protocol h x with
    | none =>
      rw [try_sources_skip env s h q x rest hx]
      exact ih
    | some doc =>
      rw [try_sources_hit env s h q x doc rest hx]
      exact preserve_hqs env _ h q h₁ info
        (preserve_register s h x doc h₁ info hfresh hl)

theorem handle_query_unknown_pos (env : Env) (s : ServerState)
    (srcs : List String) (h q : String) (i₀ : ProtocolInfo)
    (hreg : alookup h s.protocolInfos = some i₀)
    (hu : i₀.suitability = Suitability.unknown)
    (hnoimpl : has_implementation s h = false)
    (hcheck : env.check_protocol_for_tools i₀.document q = true) :
    handle_query env s (some h) srcs q =
      ((handle_query_suitable env (set_suitability s h Suitability.adequate) h q).1,
        (handle_query_suitable env (set_suitability s h Suitability.adequate) h q).2.1,
        ExtCall.classify h q ::
          (handle_query_suitable env (set_suitability s h Suitability.adequate) h q).2.2) := by
  have hciu : classify_if_unknown env s h q =
      (set_suitability s h Suitability.adequate, [ExtCall.classify h q]) := by
    unfold classify_if_unknown
    rw [hreg]
    simp [hu, hcheck]
  have hsuit : suitability_of (set_suitability s h Suitability.adequate) h =
      some Suitability.adequate := by
    unfold suitability_of
    rw [infos_set_suitability_self, hreg]
    rfl
  simp only [handle_query, hnoimpl, Bool.false_eq_true, if_false, hreg,
    Option.isSome_some, if_true, hciu, hsuit, if_pos rfl]
  simp

theorem handle_query_unknown_neg (env : Env) (s : ServerState)
    (srcs : List String) (h q : String) (i₀ : ProtocolInfo)
    (hreg : alookup h s.protocolInfos = some i₀)
    (hu : i₀.suitability = Suitability.unknown)
    (hnoimpl : has_implementation s h = false)
    (hcheck : env.check_protocol_for_tools i₀.document q = false) :
    handle_query env s (some h) srcs q =
      (set_suitability s h Suitability.inadequate,
        Response.protocolNotSuitable, [ExtCall.classify h q]) := by
  have hciu : classify_if_unknown env s h q =
      (set_suitability s h Suitability.inadequate, [ExtCall.classify h q]) := by
    unfold classify_if_unknown
    rw [hreg]
    simp [hu, hcheck]
  have hsuit : suitability_of (set_suitability s h Suitability.inadequate) h =
      some Suitability.inadequate := by
    unfold suitability_of
    rw [infos_set_suitability_self, hreg]
    rfl
  simp only [handle_query, hnoimpl, Bool.false_eq_true, if_false, hreg,
    Option.isSome_some, if_true, hciu, hsuit]
  simp

/-- Across any dispatch, every registered record keeps its source and
document, its conversation count never decreases, and a terminal
suitability verdict is never overwritten. -/
theorem preserve_handle_query (env : Env) (s : ServerState)
    (h? : Option String) (srcs : List String) (q h₁ : String)
    (info : ProtocolInfo) (hl : alookup h₁ s.protocolInfos = some info) :
    ∃ info₁, alookup h₁ (handle_query env s h? srcs q).1.protocolInfos =
      some info₁ ∧ infoLe info info₁ := by
  cases h? with
  | none => exact ⟨info, hl, infoLe_refl info⟩
  | some h =>
    by_cases h1 : has_implementation s h = true
    · rw [handle_query_fast_path env s srcs h q h1]
      exact ⟨info, hl, infoLe_refl info⟩
    · have h1f : has_implementation s h = false := by
        cases h2 : has_implementation s h
        · rfl
        · exact absurd h2 h1
      cases hreg : alookup h s.protocolInfos with
      | none =>
        rw [handle_query_unregistered env s srcs h q hreg h1f]
        exact preserve_try_sources env s h q h₁ srcs info hreg hl
      | some i₀ =>
        cases hsuit : i₀.suitability with
        | adequate =>
          rw [handle_query_adequate env s srcs h q i₀ hreg hsuit h1f]
          exact preserve_hqs env s h q h₁ info hl
        | inadequate =>
          rw [handle_query_inadequate env s srcs h q i₀ hreg hsuit h1f]
          exact ⟨info, hl, infoLe_refl info⟩
        | unknown =>
          cases hcheck : env.check_protocol_for_tools i₀.document q with
          | true =>
            rw [handle_query_unknown_pos env s srcs h q i₀ hreg hsuit h1f hcheck]
            obtain ⟨i₁, hi₁, hle₁⟩ :=
              preserve_set_unknown s h h₁ Suitability.adequate info i₀ hreg hsuit hl
            obtain ⟨i₂, hi₂, hle₂⟩ := preserve_hqs env _ h q h₁ i₁ hi₁
            exact ⟨i₂, hi₂, infoLe_trans info i₁ i₂ hle₁ hle₂⟩
          | false =>
            rw [handle_query_unknown_neg env s srcs h q i₀ hreg hsuit h1f hcheck]
            exact preserve_set_unknown s h h₁ Suitability.inadequate info i₀
              hreg hsuit hl

/-! ### Concrete fixtures used by the witnesses -/

/-- Collaborators for witnesses: classifier approves, synthesizer prefixes
the document, only source S1 validates, execution succeeds. -/
def wEnv : Env where
  check_protocol_for_tools := fun _ _ => true
  write_routine_for_tools := fun doc => String.append "routine:" doc
  download_and_verify_protocol := fun _ src => if src = "S1" then some "doc1" else none
  execute_routine := fun impl q => some (String.append impl q)

/-- Collaborators for witnesses of failure paths: no source validates and
every routine execution raises. -/
def wEnvFail : Env where
  check_protocol_for_tools := fun _ _ => true
  write_routine_for_tools := fun doc => String.append "routine:" doc
  download_and_verify_protocol := fun _ _ => none
  execute_routine := fun _ _ => none

def wAdequateInfo : ProtocolInfo := ⟨"S1", "doc1", Suitability.adequate, 0⟩

def wAdequateState : ServerState := ⟨[("p", wAdequateInfo)], []⟩

def wInadequateInfo : ProtocolInfo := ⟨"S1", "doc1", Suitability.inadequate, 0⟩

def wInadequateState : ServerState := ⟨[("p", wInadequateInfo)], []⟩

def wRoutineState : ServerState := ⟨[], [("p", "impl")]⟩

/-! ### Claims -/

/-- C1: for a dispatched query whose protocol is registered with
suitability ADEQUATE and that is not answered by the routine-cache fast
path, the dispatcher first increments the conversation count, then: if a
routine exists it executes it; otherwise, if the count is at least the
promotion threshold, it synthesizes a routine, stores it, and executes it
against the same query; otherwise it delegates to the external responder
with the protocol identifier as context. -/
theorem C1_adequate_dispatch (env : Env) (s : ServerState)
    (srcs : List String) (h q : String) (info : ProtocolInfo)
    (hreg : alookup h s.protocolInfos = some info)
    (hadq : info.suitability = Suitability.adequate)
    (hnoimpl : has_implementation s h = false) :
    handle_query env s (some h) srcs q =
      (if has_implementation (increment_num_conversations s h) h then
        (increment_num_conversations s h,
          call_implementation env (increment_num_conversations s h) h q, [])
      else if ((info.numConversations + 1 : Nat) : Int) ≥
          NUM_CONVERSATIONS_FOR_ROUTINE then
        (add_routine (increment_num_conversations s h) h
            (env.write_routine_for_tools info.document),
          call_implementation env
            (add_routine (increment_num_conversations s h) h
              (env.write_routine_for_tools info.document)) h q,
          [ExtCall.synthesize h])
      else
        (increment_num_conversations s h,
          Response.responderReply q (some h), [ExtCall.respond q (some h)])) := by
  rw [handle_query_adequate env s srcs h q info hreg hadq hnoimpl,
    hqs_synthesizes env s h q info hreg hnoimpl]
  have h1 : has_implementation (increment_num_conversations s h) h = false := by
    rw [has_implementation_increment]
    exact hnoimpl
  have h4 : ((info.numConversations + 1 : Nat) : Int) ≥
      NUM_CONVERSATIONS_FOR_ROUTINE := by
    unfold NUM_CONVERSATIONS_FOR_ROUTINE
    have := Int.natCast_nonneg (info.numConversations + 1)
    omega
  have h5 : NUM_CONVERSATIONS_FOR_ROUTINE ≤ (info.numConversations : Int) + 1 := by
    unfold NUM_CONVERSATIONS_FOR_ROUTINE
    have := Int.natCast_nonneg info.numConversations
    omega
  simp [h1, h4, h5]

theorem C1_witness :
    handle_query wEnv wAdequateState (some "p") [] "q" =
      (if has_implementation (increment_num_conversations wAdequateState "p") "p" then
        (increment_num_conversations wAdequateState "p",
          call_implementation wEnv
            (increment_num_conversations wAdequateState "p") "p" "q", [])
      else if ((wAdequateInfo.numConversations + 1 : Nat) : Int) ≥
          NUM_CONVERSATIONS_FOR_ROUTINE then
        (add_routine (increment_num_conversations wAdequateState "p") "p"
            (wEnv.write_routine_for_tools wAdequateInfo.document),
          call_implementation wEnv
            (add_routine (increment_num_conversations wAdequateState "p") "p"
              (wEnv.write_routine_for_tools wAdequateInfo.document)) "p" "q",
          [ExtCall.synthesize "p"])
      else
        (increment_num_conversations wAdequateState "p",
          Response.responderReply "q" (some "p"),
          [ExtCall.respond "q" (some "p")])) :=
  C1_adequate_dispatch wEnv wAdequateState [] "p" "q" wAdequateInfo rfl rfl rfl

/-- C2: a protocol stored as INADEQUATE with no cached routine yields
ProtocolNotSuitable on every dispatch, with unchanged state and no
external call; and, in general, the classifier is invoked only on a
dispatch whose stored suitability is UNKNOWN (the stored verdict is
returned without recomputation otherwise). -/
theorem C2_inadequate_memoized (env : Env) (s : ServerState)
    (srcs : List String) (h q : String) (info : ProtocolInfo)
    (hreg : alookup h s.protocolInfos = some info)
    (hbad : info.suitability = Suitability.inadequate)
    (hnoimpl : has_implementation s h = false) :
    handle_query env s (some h) srcs q = (s, Response.protocolNotSuitable, [])
    ∧ ∀ (env₁ : Env) (s₁ : ServerState) (h₁? : Option String)
        (srcs₁ : List String) (q₁ hh qq : String),
        ExtCall.classify hh qq ∈ (handle_query env₁ s₁ h₁? srcs₁ q₁).2.2 →
        suitability_of s₁ hh = some Suitability.unknown := by
  constructor
  · exact handle_query_inadequate env s srcs h q info hreg hbad hnoimpl
  · intro env₁ s₁ h₁? srcs₁ q₁ hh qq hmem
    obtain ⟨h₂, _, hhh, _, hsuit⟩ :=
      classify_mem_handle_query env₁ s₁ h₁? srcs₁ q₁ hh qq hmem
    rw [hhh]
    exact hsuit

theorem C2_witness :
    handle_query wEnv wInadequateState (some "p") [] "q" =
      (wInadequateState, Response.protocolNotSuitable, []) :=
  (C2_inadequate_memoized wEnv wInadequateState [] "p" "q" wInadequateInfo
    rfl rfl rfl).1

/-- C5: when the cached routine of a protocol fails at runtime, the
dispatcher returns the structured ExecutionFailed error, the state is
unchanged, and no external collaborator (in particular not the
model-based responder) is invoked for that query. -/
theorem C5_execution_failure_caught (env : Env) (s : ServerState)
    (srcs : List String) (h q impl : String)
    (himpl : alookup h s.routines = some impl)
    (hfail : env.execute_routine impl q = none) :
    handle_query env s (some h) srcs q = (s, Response.executionFailed, []) := by
  have h1 : has_implementation s h = true := by
    unfold has_implementation
    rw [himpl]
    rfl
  rw [handle_query_fast_path env s srcs h q h1]
  simp [call_implementation, himpl, hfail]

theorem C5_witness :
    handle_query wEnvFail wRoutineState (some "p") [] "q" =
      (wRoutineState, Response.executionFailed, []) :=
  C5_execution_failure_caught wEnvFail wRoutineState [] "p" "q" "impl" rfl rfl

/-- C6: a dispatch with a protocol identifier that has no cached routine
and is not registered, when the source list is empty or no source yields
a valid document, returns the NoValidProtocolSource error and leaves the
state unchanged (nothing is registered); the trace records one fetch per
offered source. -/
theorem C6_no_valid_source (env : Env) (s : ServerState)
    (srcs : List String) (h q : String)
    (hnoimpl : has_implementation s h = false)
    (hunreg : alookup h s.protocolInfos = none)
    (hall : ∀ x ∈ srcs, env.download_and_verify_protocol h x = none) :
    handle_query env s (some h) srcs q =
      (s, Response.noValidProtocolSource, srcs.map (ExtCall.fetch h)) := by
  rw [handle_query_unregistered env s srcs h q hunreg hnoimpl]
  exact try_sources_all_fail env s h q srcs hall

theorem C6_witness :
    handle_query wEnvFail ⟨[], []⟩ (some "p") ["S0", "S1"] "q" =
      (⟨[], []⟩, Response.noValidProtocolSource,
        [ExtCall.fetch "p" "S0", ExtCall.fetch "p" "S1"]) :=
  C6_no_valid_source wEnvFail ⟨[], []⟩ ["S0", "S1"] "p" "q" rfl rfl
    (by intro x hx; rfl)

theorem register_lookup_self (s : ServerState) (h src doc : String) :
    alookup h (register_new_protocol s h src doc).protocolInfos =
      some ⟨src, doc, Suitability.unknown, 0⟩ := by
  unfold register_new_protocol
  dsimp only
  rw [alookup_cons, if_pos rfl]

theorem try_sources_first_hit (env : Env) (s : ServerState) (h q src doc : String)
    (pre post : List String)
    (hpre : ∀ x ∈ pre, env.download_and_verify_protocol h x = none)
    (hsrc : env.download_and_verify_protocol h src = some doc) :
    try_sources env s h q (pre ++ src :: post) =
      ((handle_query_suitable env (register_new_protocol s h src doc) h q).1,
        (handle_query_suitable env (register_new_protocol s h src doc) h q).2.1,
        pre.map (ExtCall.fetch h) ++ ExtCall.fetch h src ::
          (handle_query_suitable env (register_new_protocol s h src doc) h q).2.2) := by
  induction pre with
  | nil =>
    rw [List.nil_append, try_sources_hit env s h q src doc post hsrc]
    simp
  | cons x rest ih =>
    have hx : env.download_and_verify_protocol h x = none :=
      hpre x (List.mem_cons_self x rest)
    have ihr := ih fun y hy => hpre y (List.mem_cons_of_mem x hy)
    rw [List.cons_append, try_sources_skip env s h q x (rest ++ src :: post) hx, ihr]
    simp

/-- C3: when an unregistered, uncached protocol is dispatched with a
source list whose first validating source is src, the dispatcher fetches
the sources in order up to src, registers the protocol with src (the
registered record keeps source src; later sources are never fetched), and
immediately handles the query on the ADEQUATE path without invoking the
suitability classifier. -/
theorem C3_first_valid_source (env : Env) (s : ServerState)
    (h q src doc : String) (pre post : List String)
    (hunreg : alookup h s.protocolInfos = none)
    (hnoimpl : has_implementation s h = false)
    (hpre : ∀ x ∈ pre, env.download_and_verify_protocol h x = none)
    (hsrc : env.download_and_verify_protocol h src = some doc) :
    handle_query env s (some h) (pre ++ src :: post) q =
      ((handle_query_suitable env (register_new_protocol s h src doc) h q).1,
        (handle_query_suitable env (register_new_protocol s h src doc) h q).2.1,
        pre.map (ExtCall.fetch h) ++ ExtCall.fetch h src ::
          (handle_query_suitable env (register_new_protocol s h src doc) h q).2.2)
    ∧ (alookup h
        (handle_query env s (some h) (pre ++ src :: post) q).1.protocolInfos).map
          (fun i => i.source) = some src
    ∧ ∀ hh qq, ExtCall.classify hh qq ∉
        (handle_query env s (some h) (pre ++ src :: post) q).2.2 := by
  have hmain : handle_query env s (some h) (pre ++ src :: post) q =
      try_sources env s h q (pre ++ src :: post) :=
    handle_query_unregistered env s (pre ++ src :: post) h q hunreg hnoimpl
  have hts := try_sources_first_hit env s h q src doc pre post hpre hsrc
  refine ⟨by rw [hmain, hts], ?_, ?_⟩
  · rw [hmain, hts]
    have hst : (handle_query_suitable env (register_new_protocol s h src doc) h q).1.protocolInfos =
        (increment_num_conversations (register_new_protocol s h src doc) h).protocolInfos :=
      hqs_infos env (register_new_protocol s h src doc) h q
    dsimp only
    rw [hst, infos_increment_self, register_lookup_self]
    rfl
  · intro hh qq
    rw [hmain]
    exact classify_not_mem_try_sources env s h q hh qq (pre ++ src :: post)

theorem C3_witness :
    handle_query wEnv ⟨[], []⟩ (some "p") (["S0"] ++ "S1" :: ["S2"]) "q" =
      ((handle_query_suitable wEnv
          (register_new_protocol ⟨[], []⟩ "p" "S1" "doc1") "p" "q").1,
        (handle_query_suitable wEnv
          (register_new_protocol ⟨[], []⟩ "p" "S1" "doc1") "p" "q").2.1,
        (["S0"].map (ExtCall.fetch "p")) ++ ExtCall.fetch "p" "S1" ::
          (handle_query_suitable wEnv
            (register_new_protocol ⟨[], []⟩ "p" "S1" "doc1") "p" "q").2.2) :=
  (C3_first_valid_source wEnv ⟨[], []⟩ "p" "q" "S1" "doc1" ["S0"] ["S2"]
    rfl rfl (by intro x hx; simp at hx; rw [hx]; rfl) rfl).1

/-- C4 counterexample: with a cached routine for protocol p and a stored
conversation count of 5, dispatching a query is answered via the routine
fast path and leaves the count at 5: a query answered via an
already-cached routine does not increment the count. -/
theorem C4_counterexample :
    has_implementation (ServerState.mk
        [("p", ⟨"S1", "doc1", Suitability.adequate, 5⟩)] [("p", "impl")]) "p"
        = true
    ∧ get_num_conversations (ServerState.mk
        [("p", ⟨"S1", "doc1", Suitability.adequate, 5⟩)] [("p", "impl")]) "p"
        = some 5
    ∧ get_num_conversations
        (handle_query wEnv (ServerState.mk
          [("p", ⟨"S1", "doc1", Suitability.adequate, 5⟩)] [("p", "impl")])
          (some "p") [] "q").1 "p" = some 5 :=
  ⟨rfl, rfl, rfl⟩

/-- C4 amended: the conversation count is incremented exactly once for a
query handled on the ADEQUATE-suitability path, a query answered via the
cached-routine fast path leaves the count unchanged, and the count never
decreases under any dispatch. -/
theorem C4_count_monotone (env : Env) (s : ServerState) (srcs : List String)
    (q h : String) (info : ProtocolInfo)
    (hreg : alookup h s.protocolInfos = some info) :
    (has_implementation s h = true →
      get_num_conversations (handle_query env s (some h) srcs q).1 h =
        some info.numConversations)
    ∧ (has_implementation s h = false →
        info.suitability = Suitability.adequate →
      get_num_conversations (handle_query env s (some h) srcs q).1 h =
        some (info.numConversations + 1))
    ∧ ∀ (h₁? : Option String) (srcs₁ : List String) (q₁ : String),
        ∃ info₁, alookup h (handle_query env s h₁? srcs₁ q₁).1.protocolInfos =
          some info₁ ∧ info.numConversations ≤ info₁.numConversations := by
  refine ⟨?_, ?_, ?_⟩
  · intro h1
    rw [handle_query_fast_path env s srcs h q h1]
    unfold get_num_conversations
    rw [hreg]
    rfl
  · intro h1 hadq
    rw [handle_query_adequate env s srcs h q info hreg hadq h1]
    unfold get_num_conversations
    rw [hqs_infos, infos_increment_self, hreg]
    rfl
  · intro h₁? srcs₁ q₁
    obtain ⟨i₁, hi, hle⟩ := preserve_handle_query env s h₁? srcs₁ q₁ h info hreg
    exact ⟨i₁, hi, hle.2.2.1⟩

theorem C4_witness :
    get_num_conversations
        (handle_query wEnv wAdequateState (some "p") [] "q").1 "p" = some 1 :=
  (C4_count_monotone wEnv wAdequateState [] "q" "p" wAdequateInfo rfl).2.1 rfl rfl

/-- C7: suitability is write-once: a record created by registration starts
as UNKNOWN, and no dispatch ever modifies a suitability that is already
ADEQUATE or INADEQUATE. -/
theorem C7_suitability_write_once (env : Env) (s : ServerState)
    (h? : Option String) (srcs : List String) (q h : String)
    (info : ProtocolInfo)
    (hreg : alookup h s.protocolInfos = some info)
    (hterm : info.suitability ≠ Suitability.unknown) :
    (∃ info₁, alookup h (handle_query env s h? srcs q).1.protocolInfos =
        some info₁ ∧ info₁.suitability = info.suitability)
    ∧ ∀ (s₀ : ServerState) (h₀ src₀ doc₀ : String),
        suitability_of (register_new_protocol s₀ h₀ src₀ doc₀) h₀ =
          some Suitability.unknown := by
  constructor
  · obtain ⟨i₁, hi, hle⟩ := preserve_handle_query env s h? srcs q h info hreg
    exact ⟨i₁, hi, hle.2.2.2 hterm⟩
  · intro s₀ h₀ src₀ doc₀
    unfold suitability_of
    rw [register_lookup_self]
    rfl

theorem C7_witness :
    suitability_of (handle_query wEnv wAdequateState (some "p") [] "q").1 "p" =
      some Suitability.adequate := by
  obtain ⟨i₁, hi, hsuit⟩ := (C7_suitability_write_once wEnv wAdequateState
    (some "p") [] "q" "p" wAdequateInfo rfl (by decide)).1
  unfold suitability_of
  rw [hi]
  simp [hsuit, wAdequateInfo]

/-- C10: since the promotion threshold constant is -1 and conversation
counts are natural numbers, the responder-delegation branch of
`handle_query_suitable` is unreachable: no call on the suitable path ever
invokes the responder or returns its reply, and the first query handled
on the ADEQUATE path for a registered protocol without a cached routine
synthesizes a routine from the stored document, stores it in the routine
cache, and returns the result of executing that freshly stored routine
against that very query (with one synthesis call in the trace). -/
theorem C10_responder_branch_unreachable (env : Env) (s : ServerState)
    (h q : String) :
    NUM_CONVERSATIONS_FOR_ROUTINE = -1
    ∧ (∀ qq ctx, ExtCall.respond qq ctx ∉ (handle_query_suitable env s h q).2.2)
    ∧ (∀ qq ctx,
        (handle_query_suitable env s h q).2.1 ≠ Response.responderReply qq ctx)
    ∧ (has_implementation s h = false →
        ∀ info, alookup h s.protocolInfos = some info →
          handle_query_suitable env s h q =
            (add_routine (increment_num_conversations s h) h
                (env.write_routine_for_tools info.document),
              call_implementation env
                (add_routine (increment_num_conversations s h) h
                  (env.write_routine_for_tools info.document)) h q,
              [ExtCall.synthesize h])) := by
  refine ⟨rfl, ?_, ?_, ?_⟩
  · intro qq ctx
    rcases hqs_trace_cases env s h q with hc | hc <;> simp [hc]
  · intro qq ctx
    exact hqs_result_not_responder env s h q qq ctx
  · intro hnoimpl info hreg
    exact hqs_synthesizes env s h q info hreg hnoimpl

theorem C10_witness :
    handle_query_suitable wEnv wAdequateState "p" "q" =
      (add_routine (increment_num_conversations wAdequateState "p") "p"
          (wEnv.write_routine_for_tools wAdequateInfo.document),
        call_implementation wEnv
          (add_routine (increment_num_conversations wAdequateState "p") "p"
            (wEnv.write_routine_for_tools wAdequateInfo.document)) "p" "q",
        [ExtCall.synthesize "p"]) :=
  (C10_responder_branch_unreachable wEnv wAdequateState "p" "q").2.2.2 rfl
    wAdequateInfo rfl

/-! ### Gateway claims -/

/-- Gateway environment for the concrete scenarios: the routine store
knows no hashes and synthesis succeeds. -/
def gEnvOk : GatewayEnv := ⟨[], fun _ => true⟩

/-- Gateway environment whose `create_and_save_routine` raises. -/
def gEnvFail : GatewayEnv := ⟨[], fun _ => false⟩

/-- C8: evaluation of the gateway at the failing input: a request with
the reserved identifier chat, unknown to the routine store and with an
empty counter, raises an uncaught KeyError (`HASH_COUNTER[protocol_hash]`
is read although chat is never inserted) instead of being forwarded to
the model handler; for a non-sentinel identifier P2 the first request
forwards without synthesis and the second request triggers exactly one
synthesis call. -/
theorem C8_gateway_eval :
    gateway_main gEnvOk ⟨[]⟩ (some "chat") = (⟨[]⟩, GResult.keyError, [])
    ∧ gateway_main gEnvOk ⟨[]⟩ (some "P2") =
        (⟨[("P2", 1)]⟩, GResult.modelResponse, [])
    ∧ gateway_main gEnvOk ⟨[("P2", 1)]⟩ (some "P2") =
        (⟨[("P2", 2)]⟩, GResult.modelResponse, ["P2"]) :=
  ⟨rfl, rfl, rfl⟩

/-- C9 counterexample: with the counter of P2 at 1 (so the threshold is
reached on this request) and a `create_and_save_routine` that raises, the
request fails with the uncaught synthesis exception instead of returning
the forwarded model response: a failure of the synthesis task does fail
the current request. -/
theorem C9_counterexample :
    gateway_main gEnvFail ⟨[("P2", 1)]⟩ (some "P2") =
      (⟨[("P2", 2)]⟩, GResult.synthesisError, ["P2"])
    ∧ gateway_main gEnvFail ⟨[("P2", 1)]⟩ (some "P2") ≠
      gateway_main gEnvOk ⟨[("P2", 1)]⟩ (some "P2") :=
  ⟨rfl, by decide⟩

theorem gateway_trace_short (env : GatewayEnv) (s : GatewayState)
    (h? : Option String) : (gateway_main env s h?).2.2.length ≤ 1 := by
  cases h? with
  | none => simp [gateway_main]
  | some h =>
    unfold gateway_main
    by_cases hk : h ∈ env.known_hashes
    · simp [hk]
    · simp only [hk, if_false, if_neg hk]
      cases hc : alookup h
          (if h ≠ "chat" then GatewayState.mk (bump_counter s.hash_counter h)
            else s).hash_counter with
      | none => simp [hc]
      | some n =>
        by_cases hth : n ≥ TRIGGER_NUM_CALLS
        · cases hcr : env.create_and_save_routine h <;> simp [hc, hth, hcr]
        · simp [hc, hth]

/-- C9 amended: the synthesis trigger of the gateway is a synchronous
inline call: when the per-identifier counter reaches the threshold on a
request for an unknown non-sentinel identifier, the request invokes
`create_and_save_routine` before forwarding; if that call raises, the
exception propagates and the request fails instead of returning the model
response, and if it succeeds the model response is returned; synthesis is
invoked at most once within a single request (a failed synthesis is not
retried within that request). -/
theorem C9_synchronous_synthesis (env : GatewayEnv) (s : GatewayState)
    (h : String) (n : Nat)
    (hk : h ∉ env.known_hashes) (hch : h ≠ "chat")
    (hc : alookup h s.hash_counter = some n)
    (hth : n + 1 ≥ TRIGGER_NUM_CALLS) :
    (env.create_and_save_routine h = false →
      gateway_main env s (some h) =
        (⟨mapEntry h (fun m => m + 1) s.hash_counter⟩,
          GResult.synthesisError, [h]))
    ∧ (env.create_and_save_routine h = true →
      gateway_main env s (some h) =
        (⟨mapEntry h (fun m => m + 1) s.hash_counter⟩,
          GResult.modelResponse, [h]))
    ∧ ∀ (s₁ : GatewayState) (h₁? : Option String),
        (gateway_main env s₁ h₁?).2.2.length ≤ 1 := by
  have hbump : bump_counter s.hash_counter h = mapEntry h (fun m => m + 1) s.hash_counter := by
    unfold bump_counter
    rw [hc]
  have hlook : alookup h (mapEntry h (fun m => m + 1) s.hash_counter) =
      some (n + 1) := by
    rw [alookup_mapEntry_self, hc]
    rfl
  have hmain : gateway_main env s (some h) =
      (if n + 1 ≥ TRIGGER_NUM_CALLS then
        (if env.create_and_save_routine h then
          (GatewayState.mk (mapEntry h (fun m => m + 1) s.hash_counter),
            GResult.modelResponse, [h])
        else
          (GatewayState.mk (mapEntry h (fun m => m + 1) s.hash_counter),
            GResult.synthesisError, [h]))
      else
        (GatewayState.mk (mapEntry h (fun m => m + 1) s.hash_counter),
          GResult.modelResponse, ([] : List String))) := by
    simp only [gateway_main]
    rw [if_neg hk, if_pos hch]
    simp only [hbump, hlook]
  refine ⟨?_, ?_, fun s₁ h₁? => gateway_trace_short env s₁ h₁?⟩
  · intro hcr
    rw [hmain, if_pos hth, hcr]
    simp
  · intro hcr
    rw [hmain, if_pos hth, hcr]
    simp

theorem C9_witness :
    gateway_main gEnvFail ⟨[("P3", 1)]⟩ (some "P3") =
      (⟨mapEntry "P3" (fun m => m + 1) [("P3", 1)]⟩,
        GResult.synthesisError, ["P3"]) :=
  (C9_synchronous_synthesis gEnvFail ⟨[("P3", 1)]⟩ "P3" 1
    (by simp [gEnvFail]) (by decide) rfl (by decide)).1 rfl

end Agora
